import Mathlib

/-!
Shallow embedding of the `plex_search_play` Home Assistant integration
(`custom_components/plex_search_play/plex_api.py` and `__init__.py`).

Remote Plex data is modelled abstractly: a `PlexSection` carries the lists
(or `Except`-valued functions, to model lower-level exceptions) that the
wrapped `plexapi` calls would return, and a `PlexServerM` is the collection
of sections plus the library-wide query functions and `fetchItem`.
Python exceptions are modelled with `Except String`; an `AttributeError`
from a missing attribute is modelled by `Option` fields on raw items.
-/

namespace PlexSpec

/-- Error message constants from `const.py`. -/
def ERROR_NO_RESULTS : String := "no_results"

def ERROR_CANNOT_CONNECT : String := "cannot_connect"

def ERROR_INVALID_AUTH : String := "invalid_auth"

/-- Connection configuration of `PlexSearchAPI.__init__`: base URL and token. -/
structure PlexConfig where
  plexUrl : String
  plexToken : String
  deriving Repr, DecidableEq

/-- Which `isinstance` branch of `_format_media_item` a raw item hits:
`plexapi.video.Movie`, `Show`, `Episode`, or the generic `else` branch. -/
inductive RawKind where
  | movie
  | tvShow
  | episode
  | otherKind
  deriving Repr, DecidableEq

/-- A raw `plexapi` media item as `_format_media_item` observes it.
Fields read with a bare attribute access (`item.ratingKey`, `item.title`,
`item.librarySectionID`, `item.librarySectionTitle`, and `item.type` in the
generic branch) are `Option`s: `none` models a missing attribute, whose
access raises `AttributeError`.  Fields read through `getattr(_, _, default)`
or through the exception-swallowing helpers (`_get_genres`, `_get_directors`,
`_get_writers`, `_get_actors`) cannot fail and carry their default. -/
structure RawItem where
  ratingKey : Option Nat := none
  title : Option String := none
  summary : String := ""
  thumb : Option String := none
  year : Option Int := none
  rating : Option Int := none
  duration : Int := 0
  librarySectionID : Option Nat := none
  librarySectionTitle : Option String := none
  kind : RawKind := .otherKind
  itemType : Option String := none
  studio : Option String := none
  genresList : List String := []
  directorsList : List String := []
  writersList : List String := []
  roles : List String := []
  seasonEpisode : String := ""
  grandparentTitle : String := ""
  episodeIndex : Option Int := none
  parentIndex : Option Int := none
  viewOffset : Option Int := none
  addedAtIso : Option String := none
  deriving Repr, DecidableEq

/-- The normalized media dictionary built by `_format_media_item`.
`Option`-wrapped fields model dictionary keys that are present only for
some media kinds (`none` = key absent).  The `index` field is the single
`"index"` dictionary key: it first receives the positional index (an int,
modelled `some`), but the Episode branch overwrites the same key —
`ATTR_INDEX` is the literal string `"index"` — with
`getattr(item, "index", None)`, the episode number or Python `None`
(modelled `none`). -/
structure MediaRecord where
  index : Option Int
  rating_key : String
  title : String
  summary : String
  thumb : String
  year : Option Int := none
  rating : Option Int := none
  duration : Int := 0
  library_section_id : Nat
  library_section_title : String
  media_type : String
  studio : Option (Option String) := none
  directors : Option (List String) := none
  writers : Option (List String) := none
  actors : Option (List String) := none
  genres : Option (List String) := none
  parent_title : Option String := none
  grandparent_title : Option String := none
  parent_index : Option (Option Int) := none
  view_offset : Option Int := none
  added_at : Option String := none
  deriving Repr, DecidableEq

/-- Core of `_get_thumb_url` on the thumbnail path: empty string when the attribute
is missing (`not hasattr`) or falsy (`not item.thumb`, i.e. the empty
string); otherwise `f"{plex_url}{thumb}?X-Plex-Token={token}"`. -/
def thumbUrlOf (cfg : PlexConfig) (thumb : Option String) : String :=
  match thumb with
  | none => ""
  | some t => if t = "" then "" else cfg.plexUrl ++ t ++ "?X-Plex-Token=" ++ cfg.plexToken

/-- Model of `PlexSearchAPI._get_thumb_url` applied to a raw item. -/
def getThumbUrl (cfg : PlexConfig) (item : RawItem) : String :=
  thumbUrlOf cfg item.thumb

/-- Model of `PlexSearchAPI._format_media_item`: `none` models the `AttributeError`
raised by a missing required attribute (caught and dropped by the callers).
The Episode branch writes `formatted[ATTR_INDEX] = getattr(item, "index", None)`
with `ATTR_INDEX = "index"`, overwriting the positional `"index"` entry set
first — modelled by the `index := item.episodeIndex` update. -/
def formatMediaItem (cfg : PlexConfig) (item : RawItem) (index : Nat) :
    Option MediaRecord := do
  let rk ← item.ratingKey
  let t ← item.title
  let secId ← item.librarySectionID
  let secTitle ← item.librarySectionTitle
  let base : MediaRecord :=
    { index := some (index : Int)
      rating_key := toString rk
      title := t
      summary := item.summary
      thumb := getThumbUrl cfg item
      year := item.year
      rating := item.rating
      duration := item.duration
      library_section_id := secId
      library_section_title := secTitle
      media_type := "" }
  match item.kind with
  | .movie =>
      some { base with
        media_type := "movie"
        studio := some item.studio
        directors := some item.directorsList
        writers := some item.writersList
        actors := some (item.roles.take 5)
        genres := some item.genresList }
  | .tvShow =>
      some { base with
        media_type := "show"
        studio := some item.studio
        genres := some item.genresList }
  | .episode =>
      some { base with
        media_type := "episode"
        parent_title := some item.seasonEpisode
        grandparent_title := some item.grandparentTitle
        index := item.episodeIndex
        parent_index := some item.parentIndex
        directors := some item.directorsList
        writers := some item.writersList }
  | .otherKind => do
      let ty ← item.itemType
      some { base with media_type := ty }

/-- The shared `for idx, item in enumerate(...)` formatting loop with a
starting index `base`: a per-item failure is caught, logged and skipped
(`continue`), and the enumeration index advances past the failed item.
`_format_results_blocking` is this loop with `base = 0`;
`async_browse_library`'s inline loop is this loop with `base = start`. -/
def formatItemsFrom (cfg : PlexConfig) : Nat → List RawItem → List MediaRecord
  | _, [] => []
  | idx, item :: rest =>
    match formatMediaItem cfg item idx with
    | some r => r :: formatItemsFrom cfg (idx + 1) rest
    | none => formatItemsFrom cfg (idx + 1) rest

/-- Model of `PlexSearchAPI._format_results_blocking`. -/
def formatResultsBlocking (cfg : PlexConfig) (items : List RawItem) : List MediaRecord :=
  formatItemsFrom cfg 0 items

/-- A raw `plexapi` collection object, as `async_get_collections` reads it
(`ratingKey` and `title` are bare attribute accesses, the rest `getattr`
with a default). -/
structure RawCollection where
  ratingKey : Option Nat := none
  title : Option String := none
  summary : String := ""
  thumb : Option String := none
  childCount : Nat := 0
  deriving Repr, DecidableEq

/-- The dictionary built per collection by `async_get_collections`. -/
structure CollectionRecord where
  index : Nat
  rating_key : String
  title : String
  summary : String
  thumb : String
  child_count : Nat
  media_type : String
  deriving Repr, DecidableEq

/-- The per-collection dictionary construction inside `async_get_collections`;
`none` models the `AttributeError` caught and skipped by its loop. -/
def formatCollection (cfg : PlexConfig) (c : RawCollection) (index : Nat) :
    Option CollectionRecord := do
  let rk ← c.ratingKey
  let t ← c.title
  some { index := index
         rating_key := toString rk
         title := t
         summary := c.summary
         thumb := thumbUrlOf cfg c.thumb
         child_count := c.childCount
         media_type := "collection" }

/-- The `for idx, collection in enumerate(collections)` loop of
`async_get_collections` (per-item failures skipped). -/
def formatCollectionsFrom (cfg : PlexConfig) : Nat → List RawCollection → List CollectionRecord
  | _, [] => []
  | idx, c :: rest =>
    match formatCollection cfg c idx with
    | some r => r :: formatCollectionsFrom cfg (idx + 1) rest
    | none => formatCollectionsFrom cfg (idx + 1) rest

/-- A Plex library section, as named queries observe it.  Query functions
return `Except String` so that an arbitrary lower-level `plexapi` exception
(`.error msg`) can be modelled alongside a normal reply (`.ok items`). -/
structure PlexSection where
  title : String
  allItems : Option String → Except String (List RawItem)
  searchQuery : String → Nat → Except String (List RawItem)
  searchGenre : String → Nat → Except String (List RawItem)
  onDeckItems : Except String (List RawItem)
  recentlyAddedItems : Nat → Except String (List RawItem)
  collectionItems : Except String (List RawCollection)

/-- A storage part of a media encoding (`part.key`). -/
structure MediaPart where
  key : String
  deriving Repr, DecidableEq

/-- One media encoding of an item, with its storage parts. -/
structure MediaEncoding where
  parts : List MediaPart
  deriving Repr, DecidableEq

/-- An item as `fetchItem` returns it to `async_get_media_url`.  An empty
`media` list models both a missing `media` attribute and a falsy (empty)
one — `hasattr(item, "media") and item.media` treats them alike. -/
structure FetchedItem where
  media : List MediaEncoding
  deriving Repr, DecidableEq

/-- The connected Plex server: its sections plus the library-wide queries
and `fetchItem`.  `fetchItem` returning `none` models the `plexapi`
`NotFound` exception. -/
structure PlexServerM where
  sections : List PlexSection
  librarySearch : String → Nat → Except String (List RawItem)
  libraryOnDeck : Except String (List RawItem)
  libraryRecentlyAdded : Nat → Except String (List RawItem)
  fetchItem : Nat → Option FetchedItem

/-- Model of `self._server.library.section(name)`: section lookup by title;
`none` models the `plexapi` `NotFound` exception. -/
def findSection (srv : PlexServerM) (name : String) : Option PlexSection :=
  srv.sections.find? (fun s => s.title == name)

/-- The warning message logged when a named section is missing during
multi-section accumulation. -/
def sectionWarning (name : String) : String :=
  "Library section '" ++ name ++ "' not found"

/-- The shared multi-section accumulation loop of `_search_blocking`,
`async_get_on_deck` and `async_get_recently_added`: for each name in order,
a `NotFound` from `library.section(name)` is caught, a warning logged and
the name skipped (`continue`); any other exception propagates; results of
found sections extend the accumulator in order.  Returns the accumulated
items together with the logged warnings. -/
def accumulateSections (srv : PlexServerM)
    (fetch : PlexSection → Except String (List RawItem)) :
    List String → Except String (List RawItem × List String)
  | [] => .ok ([], [])
  | name :: rest =>
    match findSection srv name with
    | some sec =>
      match fetch sec with
      | .error e => .error e
      | .ok items =>
        match accumulateSections srv fetch rest with
        | .error e => .error e
        | .ok (acc, ws) => .ok (items ++ acc, ws)
    | none =>
      match accumulateSections srv fetch rest with
      | .error e => .error e
      | .ok (acc, ws) => .ok (acc, sectionWarning name :: ws)

/-- Model of `PlexSearchAPI._search_blocking`.  `library_sections` is falsy for both
`None` and the empty list, in which case `library.search(query, limit)`
runs instead of the per-section loop. -/
def searchBlocking (srv : PlexServerM) (query : String)
    (library_sections : Option (List String)) (limit : Nat) :
    Except String (List RawItem × List String) :=
  match library_sections with
  | some (n :: ns) => accumulateSections srv (fun sec => sec.searchQuery query limit) (n :: ns)
  | _ =>
    match srv.librarySearch query limit with
    | .error e => .error e
    | .ok items => .ok (items, [])

/-- Model of `PlexSearchAPI.async_search`: run `_search_blocking`; an empty raw
result list returns `[]` without error; otherwise format `results[:limit]`;
any exception from the lookup is wrapped into
`PlexSearchAPIError(ERROR_NO_RESULTS)`. -/
def async_search (cfg : PlexConfig) (srv : PlexServerM) (query : String)
    (library_sections : Option (List String)) (limit : Nat) :
    Except String (List MediaRecord) :=
  match searchBlocking srv query library_sections limit with
  | .error _ => .error ERROR_NO_RESULTS
  | .ok (results, _warnings) =>
    if results.isEmpty then .ok []
    else .ok (formatResultsBlocking cfg (results.take limit))

/-- The pagination-and-results dictionary returned by `async_browse_library`. -/
structure BrowseResult where
  results : List MediaRecord
  total_count : Nat
  start : Nat
  limit : Nat
  has_more : Bool
  deriving Repr, DecidableEq

/-- Model of `PlexSearchAPI.async_browse_library`: looks up the section (a `NotFound`
becomes `ERROR_NO_RESULTS`), fetches `section.all(sort=sort)`, slices
`all_items[start:start + limit]`, formats each sliced item with index
`start + idx`, and reports `has_more = (start + limit) < total_count`. -/
def async_browse_library (cfg : PlexConfig) (srv : PlexServerM)
    (library_name : String) (start limit : Nat) (sort : Option String) :
    Except String BrowseResult :=
  match findSection srv library_name with
  | none => .error ERROR_NO_RESULTS
  | some sec =>
    match sec.allItems sort with
    | .error _ => .error ERROR_NO_RESULTS
    | .ok all_items =>
      let total_count := all_items.length
      let paginated_items := (all_items.drop start).take limit
      .ok { results := formatItemsFrom cfg start paginated_items
            total_count := total_count
            start := start
            limit := limit
            has_more := start + limit < total_count }

/-- The on-deck formatting loop: the shared loop plus
`formatted_item["view_offset"] = item.viewOffset` when the attribute exists. -/
def formatOnDeckFrom (cfg : PlexConfig) : Nat → List RawItem → List MediaRecord
  | _, [] => []
  | idx, item :: rest =>
    match formatMediaItem cfg item idx with
    | some r => { r with view_offset := item.viewOffset } :: formatOnDeckFrom cfg (idx + 1) rest
    | none => formatOnDeckFrom cfg (idx + 1) rest

/-- Model of `PlexSearchAPI.async_get_on_deck`. -/
def async_get_on_deck (cfg : PlexConfig) (srv : PlexServerM)
    (library_sections : Option (List String)) (limit : Nat) :
    Except String (List MediaRecord) :=
  let raw : Except String (List RawItem × List String) :=
    match library_sections with
    | some (n :: ns) => accumulateSections srv (fun sec => sec.onDeckItems) (n :: ns)
    | _ =>
      match srv.libraryOnDeck with
      | .error e => .error e
      | .ok items => .ok (items, [])
  match raw with
  | .error _ => .error ERROR_NO_RESULTS
  | .ok (results, _warnings) => .ok (formatOnDeckFrom cfg 0 (results.take limit))

/-- The recently-added formatting loop: the shared loop plus
`formatted_item["added_at"] = item.addedAt.isoformat()` when present. -/
def formatRecentFrom (cfg : PlexConfig) : Nat → List RawItem → List MediaRecord
  | _, [] => []
  | idx, item :: rest =>
    match formatMediaItem cfg item idx with
    | some r => { r with added_at := item.addedAtIso } :: formatRecentFrom cfg (idx + 1) rest
    | none => formatRecentFrom cfg (idx + 1) rest

/-- Model of `PlexSearchAPI.async_get_recently_added`: each named section is queried
with `recentlyAdded(maxresults=limit)`, the merged list is truncated again
to `results[:limit]`, then formatted. -/
def async_get_recently_added (cfg : PlexConfig) (srv : PlexServerM)
    (library_sections : Option (List String)) (limit : Nat) :
    Except String (List MediaRecord) :=
  let raw : Except String (List RawItem × List String) :=
    match library_sections with
    | some (n :: ns) =>
      accumulateSections srv (fun sec => sec.recentlyAddedItems limit) (n :: ns)
    | _ =>
      match srv.libraryRecentlyAdded limit with
      | .error e => .error e
      | .ok items => .ok (items, [])
  match raw with
  | .error _ => .error ERROR_NO_RESULTS
  | .ok (results, _warnings) => .ok (formatRecentFrom cfg 0 (results.take limit))

/-- Model of `PlexSearchAPI.async_get_by_genre`: single-section; a missing section
(`NotFound`) or any other exception becomes `ERROR_NO_RESULTS`; the results
are formatted without further client-side truncation. -/
def async_get_by_genre (cfg : PlexConfig) (srv : PlexServerM)
    (library_name genre : String) (limit : Nat) :
    Except String (List MediaRecord) :=
  match findSection srv library_name with
  | none => .error ERROR_NO_RESULTS
  | some sec =>
    match sec.searchGenre genre limit with
    | .error _ => .error ERROR_NO_RESULTS
    | .ok results => .ok (formatItemsFrom cfg 0 results)

/-- Model of `PlexSearchAPI.async_get_collections`: single-section; a missing section
or any other exception becomes `ERROR_NO_RESULTS`. -/
def async_get_collections (cfg : PlexConfig) (srv : PlexServerM)
    (library_name : String) : Except String (List CollectionRecord) :=
  match findSection srv library_name with
  | none => .error ERROR_NO_RESULTS
  | some sec =>
    match sec.collectionItems with
    | .error _ => .error ERROR_NO_RESULTS
    | .ok cols => .ok (formatCollectionsFrom cfg 0 cols)

/-- How the `try` body of `async_get_media_url` ends before its `except`
clauses run: the returned URL, the explicit
`raise PlexSearchAPIError("No playable media found")`, the `plexapi`
`NotFound` from `fetchItem`, or the `ValueError` from `int(rating_key)`
on a non-numeric key. -/
inductive ResolveInner where
  | ok (url : String)
  | noPlayable
  | notFound
  | badKey
  deriving Repr, DecidableEq

/-- The numeric value of a decimal digit, `none` for a non-digit. -/
def digitVal? (c : Char) : Option Nat :=
  if c.isDigit then some (c.toNat - '0'.toNat) else none

/-- Accumulating decimal parser over a character list (structural model of
Python `int(...)` on non-negative decimal strings; `none` = `ValueError`). -/
def parseNatList : List Char → Option Nat → Option Nat
  | [], acc => acc
  | c :: rest, acc =>
    match digitVal? c with
    | none => none
    | some d => parseNatList rest (some (acc.getD 0 * 10 + d))

/-- Python `int(rating_key)` on the decimal rating-key string. -/
def parseRatingKey (s : String) : Option Nat :=
  parseNatList s.toList none

/-- The `try` body of `async_get_media_url`: fetch the item by
`int(rating_key)`; if `item.media` is non-empty and the first encoding's
`parts` is non-empty, build
`f"{plex_url}{part.key}?X-Plex-Token={token}"` from the first part of the
first encoding; otherwise raise `"No playable media found"`. -/
def resolveInner (cfg : PlexConfig) (srv : PlexServerM) (rating_key : String) :
    ResolveInner :=
  match parseRatingKey rating_key with
  | none => .badKey
  | some k =>
    match srv.fetchItem k with
    | none => .notFound
    | some item =>
      match item.media with
      | [] => .noPlayable
      | m :: _ =>
        match m.parts with
        | [] => .noPlayable
        | p :: _ => .ok (cfg.plexUrl ++ p.key ++ "?X-Plex-Token=" ++ cfg.plexToken)

/-- Model of `PlexSearchAPI.async_get_media_url`: the `except NotFound` clause maps
the missing item to `PlexSearchAPIError(ERROR_NO_RESULTS)`, and the
`except Exception` clause maps every other escaping exception — including
the integration's own `"No playable media found"` raise — to the very same
`PlexSearchAPIError(ERROR_NO_RESULTS)`.  Note the annotated return type is
`str`: a bare URL, not a `(url, media_kind)` pair. -/
def async_get_media_url (cfg : PlexConfig) (srv : PlexServerM)
    (rating_key : String) : Except String String :=
  match resolveInner cfg srv rating_key with
  | .ok url => .ok url
  | .noPlayable => .error ERROR_NO_RESULTS
  | .notFound => .error ERROR_NO_RESULTS
  | .badKey => .error ERROR_NO_RESULTS

/-- Observable side effects of one `handle_play_media` service call. -/
inductive PlayEffect where
  | firedEvent (name : String)
  | remoteResolve (rating_key : String)
  | playerServiceCall (entity contentType contentId : String)
  deriving Repr, DecidableEq

/-- How one `handle_play_media` call terminates. -/
inductive PlayOutcome where
  | ok
  | haError (msg : String)
  | valueError
  deriving Repr, DecidableEq

/-- Effects (in order) and termination of one `handle_play_media` call. -/
structure HandleResult where
  effects : List PlayEffect
  outcome : PlayOutcome
  deriving Repr, DecidableEq

/-- Python `str.lower()` (ASCII case folding, character by character). -/
def strToLower (s : String) : String :=
  ⟨s.toList.map Char.toLower⟩

/-- Python `needle in hay` on strings. -/
def strContains (hay needle : String) : Bool :=
  decide (needle.toList <:+: hay.toList)

/-- Python 2-tuple unpacking `a, b = s` of a string: succeeds exactly when
the string has two characters, else raises `ValueError`. -/
def tupleUnpack2 (s : String) : Option (Char × Char) :=
  match s.toList with
  | [a, b] => some (a, b)
  | _ => none

/-- The `EVENT_PLAYBACK_FAILED` event name from `const.py`. -/
def EVENT_PLAYBACK_FAILED : String := "plex_search_play_playback_failed"

/-- The `EVENT_PLAYBACK_STARTED` event name from `const.py`. -/
def EVENT_PLAYBACK_STARTED : String := "plex_search_play_playback_started"

/-- The error message of the allow-list rejection in `handle_play_media`. -/
def invalidPlayerMsg (player : String) : String :=
  "Player " ++ player ++ " is not in the selected players list"

/-- Model of `handle_play_media` from `__init__.py`:
1. if `selected_players` is non-empty and the target player is not in it,
   fire `EVENT_PLAYBACK_FAILED` and raise `HomeAssistantError` — before the
   `try` block, so before any call to the Plex API;
2. otherwise, a player whose lowered entity id contains `"plex"` but not
   `"plex_search_play"` is played via the library metadata path with
   content type `"video"`, with no resolver call;
3. any other player goes through
   `media_url, media_type = await api.async_get_media_url(rating_key)`:
   a resolver failure (`PlexSearchAPIError`) fires `EVENT_PLAYBACK_FAILED`
   and raises `HomeAssistantError`; a resolver success returns a plain
   string, and the 2-tuple unpacking of that string raises an uncaught
   `ValueError` unless the URL happens to have exactly two characters
   (in which case `media_url` and `media_type` are its two characters). -/
def handle_play_media (cfg : PlexConfig) (srv : PlexServerM)
    (selected_players : List String) (rating_key player_entity_id : String) :
    HandleResult :=
  if !selected_players.isEmpty && !(selected_players.contains player_entity_id) then
    { effects := [.firedEvent EVENT_PLAYBACK_FAILED]
      outcome := .haError (invalidPlayerMsg player_entity_id) }
  else
    let lowered := strToLower player_entity_id
    let isPlexPlayer := strContains lowered "plex" && !(strContains lowered "plex_search_play")
    if isPlexPlayer then
      let media_url := "/library/metadata/" ++ rating_key
      { effects := [.playerServiceCall player_entity_id "video" media_url,
                    .firedEvent EVENT_PLAYBACK_STARTED]
        outcome := .ok }
    else
      match async_get_media_url cfg srv rating_key with
      | .error e =>
        { effects := [.remoteResolve rating_key, .firedEvent EVENT_PLAYBACK_FAILED]
          outcome := .haError ("Failed to play media: " ++ e) }
      | .ok url =>
        match tupleUnpack2 url with
        | none =>
          { effects := [.remoteResolve rating_key]
            outcome := .valueError }
        | some (u, ty) =>
          let media_url := String.singleton u
          let media_type := String.singleton ty
          let content_type :=
            if media_type = "track" then "music"
            else if media_type = "movie" ∨ media_type = "episode" ∨ media_type = "video" then
              "video"
            else "url"
          { effects := [.remoteResolve rating_key,
                        .playerServiceCall player_entity_id content_type media_url,
                        .firedEvent EVENT_PLAYBACK_STARTED]
            outcome := .ok }

/-!  ## Helper lemmas about the formatting loops  -/

theorem formatMediaItem_index (cfg : PlexConfig) (item : RawItem) (idx : Nat)
    (r : MediaRecord) (h : formatMediaItem cfg item idx = some r) :
    r.index = if item.kind = .episode then item.episodeIndex else some (idx : Int) := by
  simp only [formatMediaItem, bind, Option.bind_eq_some] at h
  obtain ⟨rk, -, h⟩ := h
  obtain ⟨t, -, h⟩ := h
  obtain ⟨sid, -, h⟩ := h
  obtain ⟨stl, -, h⟩ := h
  cases hk : item.kind <;> simp only [hk, Option.bind_eq_some, Option.some.injEq] at h
  case movie => subst h; simp
  case tvShow => subst h; simp
  case episode => subst h; simp
  case otherKind =>
    obtain ⟨ty, -, h⟩ := h
    subst h; simp

theorem formatCollection_index (cfg : PlexConfig) (c : RawCollection) (idx : Nat)
    (r : CollectionRecord) (h : formatCollection cfg c idx = some r) : r.index = idx := by
  simp only [formatCollection, bind, Option.bind_eq_some, Option.some.injEq] at h
  obtain ⟨rk, -, h⟩ := h
  obtain ⟨t, -, h⟩ := h
  subst h; rfl

theorem formatItemsFrom_length (cfg : PlexConfig) :
    ∀ (base : Nat) (items : List RawItem),
      (formatItemsFrom cfg base items).length ≤ items.length := by
  intro base items
  induction items generalizing base with
  | nil => simp [formatItemsFrom]
  | cons x xs ih =>
    simp only [formatItemsFrom, List.length_cons]
    cases h : formatMediaItem cfg x base with
    | some r => exact Nat.succ_le_succ (ih (base + 1))
    | none => exact Nat.le_succ_of_le (ih (base + 1))

theorem formatItemsFrom_eq_filterMap (cfg : PlexConfig) :
    ∀ (base : Nat) (items : List RawItem),
      formatItemsFrom cfg base items =
        (List.enumFrom base items).filterMap (fun p => formatMediaItem cfg p.2 p.1) := by
  intro base items
  induction items generalizing base with
  | nil => rfl
  | cons x xs ih =>
    simp only [formatItemsFrom, List.enumFrom, List.filterMap_cons]
    cases h : formatMediaItem cfg x base with
    | some r => simp [ih (base + 1)]
    | none => simp [ih (base + 1)]

theorem formatItemsFrom_append (cfg : PlexConfig) :
    ∀ (base : Nat) (xs ys : List RawItem),
      formatItemsFrom cfg base (xs ++ ys) =
        formatItemsFrom cfg base xs ++ formatItemsFrom cfg (base + xs.length) ys := by
  intro base xs ys
  induction xs generalizing base with
  | nil => simp [formatItemsFrom]
  | cons x xs ih =>
    have harith : base + 1 + xs.length = base + (xs.length + 1) := by omega
    simp only [List.cons_append, formatItemsFrom, List.length_cons, List.append_eq]
    cases h : formatMediaItem cfg x base with
    | some r => rw [ih (base + 1), harith, List.cons_append]
    | none => rw [ih (base + 1), harith]

theorem formatItemsFrom_map_index_sublist (cfg : PlexConfig) :
    ∀ (base : Nat) (items : List RawItem), (∀ it ∈ items, it.kind ≠ .episode) →
      ((formatItemsFrom cfg base items).map (fun r => r.index)).Sublist
        ((List.range' base items.length).map (fun n => some (n : Int))) := by
  intro base items
  induction items generalizing base with
  | nil => intro _; simp [formatItemsFrom]
  | cons x xs ih =>
    intro hep
    have hx : x.kind ≠ .episode := hep x (List.mem_cons_self _ _)
    have hxs : ∀ it ∈ xs, it.kind ≠ .episode :=
      fun it hit => hep it (List.mem_cons_of_mem _ hit)
    simp only [formatItemsFrom, List.length_cons, List.range'_succ, List.map_cons]
    cases h : formatMediaItem cfg x base with
    | some r =>
      have hidx := formatMediaItem_index cfg x base r h
      rw [if_neg hx] at hidx
      simpa [hidx] using List.Sublist.cons₂ (some (base : Int)) (ih (base + 1) hxs)
    | none => exact List.Sublist.cons _ (ih (base + 1) hxs)

theorem formatOnDeckFrom_map_index_sublist (cfg : PlexConfig) :
    ∀ (base : Nat) (items : List RawItem), (∀ it ∈ items, it.kind ≠ .episode) →
      ((formatOnDeckFrom cfg base items).map (fun r => r.index)).Sublist
        ((List.range' base items.length).map (fun n => some (n : Int))) := by
  intro base items
  induction items generalizing base with
  | nil => intro _; simp [formatOnDeckFrom]
  | cons x xs ih =>
    intro hep
    have hx : x.kind ≠ .episode := hep x (List.mem_cons_self _ _)
    have hxs : ∀ it ∈ xs, it.kind ≠ .episode :=
      fun it hit => hep it (List.mem_cons_of_mem _ hit)
    simp only [formatOnDeckFrom, List.length_cons, List.range'_succ, List.map_cons]
    cases h : formatMediaItem cfg x base with
    | some r =>
      have hidx := formatMediaItem_index cfg x base r h
      rw [if_neg hx] at hidx
      simpa [hidx] using List.Sublist.cons₂ (some (base : Int)) (ih (base + 1) hxs)
    | none => exact List.Sublist.cons _ (ih (base + 1) hxs)

theorem formatRecentFrom_map_index_sublist (cfg : PlexConfig) :
    ∀ (base : Nat) (items : List RawItem), (∀ it ∈ items, it.kind ≠ .episode) →
      ((formatRecentFrom cfg base items).map (fun r => r.index)).Sublist
        ((List.range' base items.length).map (fun n => some (n : Int))) := by
  intro base items
  induction items generalizing base with
  | nil => intro _; simp [formatRecentFrom]
  | cons x xs ih =>
    intro hep
    have hx : x.kind ≠ .episode := hep x (List.mem_cons_self _ _)
    have hxs : ∀ it ∈ xs, it.kind ≠ .episode :=
      fun it hit => hep it (List.mem_cons_of_mem _ hit)
    simp only [formatRecentFrom, List.length_cons, List.range'_succ, List.map_cons]
    cases h : formatMediaItem cfg x base with
    | some r =>
      have hidx := formatMediaItem_index cfg x base r h
      rw [if_neg hx] at hidx
      simpa [hidx] using List.Sublist.cons₂ (some (base : Int)) (ih (base + 1) hxs)
    | none => exact List.Sublist.cons _ (ih (base + 1) hxs)

theorem formatCollectionsFrom_map_index_sublist (cfg : PlexConfig) :
    ∀ (base : Nat) (cols : List RawCollection),
      ((formatCollectionsFrom cfg base cols).map (fun r => r.index)).Sublist
        (List.range' base cols.length) := by
  intro base cols
  induction cols generalizing base with
  | nil => simp [formatCollectionsFrom]
  | cons x xs ih =>
    simp only [formatCollectionsFrom, List.length_cons, List.range'_succ]
    cases h : formatCollection cfg x base with
    | some r =>
      have hidx := formatCollection_index cfg x base r h
      simpa [hidx] using List.Sublist.cons₂ base (ih (base + 1))
    | none => exact List.Sublist.cons base (ih (base + 1))

/-!  ## Helper lemma about multi-section accumulation  -/

theorem accumulateSections_ok (srv : PlexServerM)
    (fetch : PlexSection → Except String (List RawItem))
    (itemsOf : String → List RawItem) :
    ∀ (names : List String),
      (∀ n ∈ names, ∀ sec, findSection srv n = some sec → fetch sec = .ok (itemsOf n)) →
      accumulateSections srv fetch names =
        .ok ((names.filter (fun n => (findSection srv n).isSome)).flatMap itemsOf,
             (names.filter (fun n => (findSection srv n).isNone)).map sectionWarning) := by
  intro names
  induction names with
  | nil => intro _; rfl
  | cons n ns ih =>
    intro h
    have hrest := ih (fun m hm sec hsec => h m (List.mem_cons_of_mem _ hm) sec hsec)
    simp only [accumulateSections]
    cases hfind : findSection srv n with
    | some sec =>
      simp [h n (List.mem_cons_self _ _) sec hfind, hrest, List.filter_cons, hfind]
    | none =>
      simp [hrest, List.filter_cons, hfind]

/-!  ## Substring occurrence counting (for the thumbnail-token property)  -/

/-- Number of positions of `s` at which `pat` occurs as a contiguous block. -/
def occCount (pat : List Char) : List Char → Nat
  | [] => if pat <+: ([] : List Char) then 1 else 0
  | c :: rest => (if pat <+: (c :: rest) then 1 else 0) + occCount pat rest

theorem occCount_eq_zero (q : Char) (pr : List Char) :
    ∀ (s : List Char), q ∉ s → occCount (q :: pr) s = 0 := by
  intro s hq
  induction s with
  | nil => simp [occCount]
  | cons c rest ih =>
    have hqc : q ≠ c := fun he => hq (he ▸ List.mem_cons_self _ _)
    have hqr : q ∉ rest := fun hm => hq (List.mem_cons_of_mem _ hm)
    have hnp : ¬ (q :: pr <+: c :: rest) := by
      intro hp
      exact hqc (List.cons_prefix_cons.mp hp).1
    simp [occCount, hnp, ih hqr]

theorem occCount_append_left (q : Char) (pr : List Char) :
    ∀ (a s : List Char), q ∉ a → occCount (q :: pr) (a ++ s) = occCount (q :: pr) s := by
  intro a s ha
  induction a with
  | nil => simp
  | cons c a' ih =>
    have hqc : q ≠ c := fun he => ha (he ▸ List.mem_cons_self _ _)
    have hqa : q ∉ a' := fun hm => ha (List.mem_cons_of_mem _ hm)
    have hnp : ¬ (q :: pr <+: c :: (a' ++ s)) := by
      intro hp
      exact hqc (List.cons_prefix_cons.mp hp).1
    simp [occCount, hnp, ih hqa]

theorem occCount_once (q : Char) (pr a b : List Char)
    (ha : q ∉ a) (hpr : q ∉ pr) (hb : q ∉ b) :
    occCount (q :: pr) (a ++ q :: (pr ++ b)) = 1 := by
  rw [occCount_append_left q pr a _ ha]
  have hp : (q :: pr) <+: (q :: (pr ++ b)) :=
    List.cons_prefix_cons.mpr ⟨rfl, List.prefix_append pr b⟩
  have hz : occCount (q :: pr) (pr ++ b) = 0 := by
    apply occCount_eq_zero
    intro hm
    rcases List.mem_append.mp hm with h | h
    · exact hpr h
    · exact hb h
  simp [occCount, hp, hz]

/-- Lemma: `String.toList` distributes over append. -/
theorem string_toList_append (a b : String) : (a ++ b).toList = a.toList ++ b.toList := by
  cases a; cases b; rfl

/-!  ## Concrete sample data  -/

/-- A sample connection configuration. -/
def sampleCfg : PlexConfig := { plexUrl := "http://plex:32400", plexToken := "tok" }

/-- A fully-populated movie item with the given rating key. -/
def movieItem (n : Nat) : RawItem :=
  { ratingKey := some n
    title := some ("Movie " ++ toString n)
    librarySectionID := some 1
    librarySectionTitle := some "Movies"
    kind := .movie
    thumb := some ("/library/metadata/" ++ toString n ++ "/thumb/1") }

/-- A 12-item movie library. -/
def movies12 : List RawItem := (List.range 12).map (fun i => movieItem (i + 1))

/-- A sample "Movies" section over `movies12`. -/
def moviesSection : PlexSection :=
  { title := "Movies"
    allItems := fun _ => .ok movies12
    searchQuery := fun _ lim => .ok (movies12.take lim)
    searchGenre := fun _ lim => .ok (movies12.take lim)
    onDeckItems := .ok (movies12.take 2)
    recentlyAddedItems := fun lim => .ok (movies12.take lim)
    collectionItems := .ok [] }

/-- A sample server: one "Movies" section; `fetchItem` knows rating key 101
(one media encoding with one part) and rating key 1 (an item that exists but
has an empty `media` list, i.e. no playable parts). -/
def sampleSrv : PlexServerM :=
  { sections := [moviesSection]
    librarySearch := fun _ lim => .ok (movies12.take lim)
    libraryOnDeck := .ok (movies12.take 2)
    libraryRecentlyAdded := fun lim => .ok (movies12.take lim)
    fetchItem := fun k =>
      if k = 101 then
        some { media := [{ parts := [{ key := "/library/parts/101/file.mp4" }] }] }
      else if k = 1 then
        some { media := [] }
      else none }

/-- A server whose every remote call raises. -/
def errSrv : PlexServerM :=
  { sections := []
    librarySearch := fun _ _ => .error "boom"
    libraryOnDeck := .error "boom"
    libraryRecentlyAdded := fun _ => .error "boom"
    fetchItem := fun _ => none }

/-!  ## Claims  -/

/-- C1 (code bug in the source): the spec — and the caller
`handle_play_media`, which unpacks
`media_url, media_type = await api.async_get_media_url(rating_key)` —
expects the playback resolver to return a `(url, media_kind)` pair, but
`async_get_media_url` returns a bare URL string.  At a rating key that
resolves to an item with one media encoding and one storage part, the
resolver yields the token-bearing URL string, the 2-tuple unpacking of that
string fails (its length is not 2), and `handle_play_media` ends in an
uncaught `ValueError`: no `(url, media_kind)` pair is ever produced. -/
theorem C1_resolver_returns_bare_url_not_pair :
    async_get_media_url sampleCfg sampleSrv "101" =
      .ok "http://plex:32400/library/parts/101/file.mp4?X-Plex-Token=tok" ∧
    tupleUnpack2 "http://plex:32400/library/parts/101/file.mp4?X-Plex-Token=tok" = none ∧
    (handle_play_media sampleCfg sampleSrv ["media_player.tv"] "101"
        "media_player.tv").outcome = .valueError :=
  ⟨rfl, rfl, rfl⟩

/-- C2 counterexample: the nonexistent rating key "999" and the
no-playable-parts rating key "1" both surface as the identical
`PlexSearchAPIError(ERROR_NO_RESULTS)` — the two failures are internally
distinct (`notFound` vs the `"No playable media found"` raise, `noPlayable`)
but externally indistinguishable, and neither is a distinct NotFound-class
error. -/
theorem C2_failures_not_distinct_counterexample :
    resolveInner sampleCfg sampleSrv "1" = .noPlayable ∧
    resolveInner sampleCfg sampleSrv "999" = .notFound ∧
    async_get_media_url sampleCfg sampleSrv "1" = .error ERROR_NO_RESULTS ∧
    async_get_media_url sampleCfg sampleSrv "999" = .error ERROR_NO_RESULTS ∧
    async_get_media_url sampleCfg sampleSrv "1" =
      async_get_media_url sampleCfg sampleSrv "999" :=
  ⟨rfl, rfl, rfl, rfl, rfl⟩

/-- C2 (amended): the playback resolver fails with the same NoResults-class
error (`PlexSearchAPIError(ERROR_NO_RESULTS)`) both when the rating key does
not resolve to any item and when the item exists but has no playable parts;
the no-playable-parts case first raises a distinct internal
`PlexSearchAPIError("No playable media found")` (`noPlayable`), but the
blanket `except Exception` handler re-wraps it, so the caller observes the
identical error in both cases. -/
theorem C2_resolver_failures_amended (cfg : PlexConfig) (srv : PlexServerM)
    (key : String) :
    (∀ k, parseRatingKey key = some k → srv.fetchItem k = none →
      resolveInner cfg srv key = .notFound ∧
      async_get_media_url cfg srv key = .error ERROR_NO_RESULTS) ∧
    (∀ k item, parseRatingKey key = some k → srv.fetchItem k = some item →
      (item.media = [] ∨ ∃ m ms, item.media = m :: ms ∧ m.parts = []) →
      resolveInner cfg srv key = .noPlayable ∧
      async_get_media_url cfg srv key = .error ERROR_NO_RESULTS) := by
  constructor
  · intro k hk hf
    have h1 : resolveInner cfg srv key = .notFound := by
      simp [resolveInner, hk, hf]
    exact ⟨h1, by simp [async_get_media_url, h1]⟩
  · intro k item hk hf hm
    have h1 : resolveInner cfg srv key = .noPlayable := by
      rcases hm with hnil | ⟨m, ms, hcons, hparts⟩
      · simp [resolveInner, hk, hf, hnil]
      · simp [resolveInner, hk, hf, hcons, hparts]
    exact ⟨h1, by simp [async_get_media_url, h1]⟩

/-- Witness for C2: the amended theorem applied at rating keys "999"
(nonexistent) and "1" (exists, no playable parts) on the sample server. -/
theorem C2_resolver_failures_witness :
    resolveInner sampleCfg sampleSrv "999" = .notFound ∧
    async_get_media_url sampleCfg sampleSrv "999" = .error ERROR_NO_RESULTS ∧
    resolveInner sampleCfg sampleSrv "1" = .noPlayable ∧
    async_get_media_url sampleCfg sampleSrv "1" = .error ERROR_NO_RESULTS := by
  have h9 := (C2_resolver_failures_amended sampleCfg sampleSrv "999").1 999 rfl rfl
  have h1 := (C2_resolver_failures_amended sampleCfg sampleSrv "1").2 1
    { media := [] } rfl rfl (Or.inl rfl)
  exact ⟨h9.1, h9.2, h1.1, h1.2⟩

/-- C3: for every `browse` call that succeeds, the result list has at most
`limit` records, `total_count` is the full section size, and
`has_more = ((start + limit) < total_count)`. -/
theorem C3_browse_pagination (cfg : PlexConfig) (srv : PlexServerM)
    (name : String) (start limit : Nat) (sort : Option String)
    (sec : PlexSection) (allIt : List RawItem) (b : BrowseResult)
    (hsec : findSection srv name = some sec)
    (hall : sec.allItems sort = .ok allIt)
    (hb : async_browse_library cfg srv name start limit sort = .ok b) :
    b.results.length ≤ limit ∧
    b.total_count = allIt.length ∧
    b.has_more = decide (start + limit < allIt.length) := by
  simp only [async_browse_library, hsec, hall, Except.ok.injEq] at hb
  subst hb
  refine ⟨?_, rfl, rfl⟩
  calc (formatItemsFrom cfg start ((allIt.drop start).take limit)).length
      ≤ ((allIt.drop start).take limit).length := formatItemsFrom_length cfg start _
    _ ≤ limit := by rw [List.length_take]; exact inf_le_left

/-- The browse of the sample 12-movie section at `start = 10, limit = 5`. -/
def b12 : BrowseResult :=
  match async_browse_library sampleCfg sampleSrv "Movies" 10 5 none with
  | .ok b => b
  | .error _ =>
    { results := [], total_count := 0, start := 0, limit := 0, has_more := true }

/-- Witness for C3: browsing the 12-item sample library with `start = 10`,
`limit = 5` returns 2 items and `has_more = false`. -/
theorem C3_browse_pagination_witness :
    b12.results.length ≤ 5 ∧ b12.total_count = 12 ∧
    b12.has_more = decide (10 + 5 < 12) ∧
    b12.results.length = 2 ∧ b12.has_more = false := by
  have h := C3_browse_pagination sampleCfg sampleSrv "Movies" 10 5 none
    moviesSection movies12 b12 rfl rfl rfl
  exact ⟨h.1, h.2.1, h.2.2, rfl, rfl⟩

/-- C4: each named section is queried with the caller's full `limit`
(the per-section loop passes `limit` through unchanged), the per-section
results are merged by plain concatenation, and the caller-visible limit is
applied exactly once — `results[:limit]` over the merged list — so a
successful `async_search` never returns more than `limit` records. -/
theorem C4_search_limit_applied_once (cfg : PlexConfig) (srv : PlexServerM)
    (query : String) (library_sections : Option (List String)) (limit : Nat) :
    (∀ out, async_search cfg srv query library_sections limit = .ok out →
      out.length ≤ limit) ∧
    (∀ n ns, searchBlocking srv query (some (n :: ns)) limit =
      accumulateSections srv (fun sec => sec.searchQuery query limit) (n :: ns)) ∧
    (∀ results warnings,
      searchBlocking srv query library_sections limit = .ok (results, warnings) →
      results ≠ [] →
      async_search cfg srv query library_sections limit =
        .ok (formatResultsBlocking cfg (results.take limit))) := by
  refine ⟨?_, fun n ns => rfl, ?_⟩
  · intro out hout
    simp only [async_search] at hout
    cases hsb : searchBlocking srv query library_sections limit with
    | error e => rw [hsb] at hout; cases hout
    | ok p =>
      obtain ⟨results, ws⟩ := p
      rw [hsb] at hout
      dsimp only at hout
      split at hout
      · cases hout
        exact Nat.zero_le _
      · cases hout
        calc (formatResultsBlocking cfg (results.take limit)).length
            ≤ (results.take limit).length := formatItemsFrom_length cfg 0 _
          _ ≤ limit := by rw [List.length_take]; exact inf_le_left
  · intro results warnings hsb hne
    simp only [async_search, hsb]
    rw [if_neg]
    simpa [List.isEmpty_iff] using hne

/-- The merged-then-truncated sample search over sections
`["Movies", "Nope"]` with `limit = 6`. -/
def searchOut6 : List MediaRecord :=
  match async_search sampleCfg sampleSrv "q" (some ["Movies", "Nope"]) 6 with
  | .ok l => l
  | .error _ => []

/-- Witness for C4: the sample search returns exactly 6 of the 12 movies. -/
theorem C4_search_limit_applied_once_witness :
    searchOut6.length ≤ 6 ∧ searchOut6.length = 6 := by
  have h := (C4_search_limit_applied_once sampleCfg sampleSrv "q"
    (some ["Movies", "Nope"]) 6).1 searchOut6 rfl
  exact ⟨h, rfl⟩

/-- C5: during multi-section accumulation (search, on-deck, recently-added)
an unknown section name is skipped — it contributes only a warning, the
found sections' results are still returned, and no error is raised — while
for the single-section operations (browse, by-genre, collections) an unknown
section name is a hard `ERROR_NO_RESULTS` failure. -/
theorem C5_unknown_section_policy (cfg : PlexConfig) (srv : PlexServerM)
    (query genre : String) (limit start : Nat) (sort : Option String)
    (badName n : String) (ns : List String)
    (itemsOf deckOf recentOf : String → List RawItem)
    (hsearch : ∀ m ∈ n :: ns, ∀ sec, findSection srv m = some sec →
      sec.searchQuery query limit = .ok (itemsOf m))
    (hdeck : ∀ m ∈ n :: ns, ∀ sec, findSection srv m = some sec →
      sec.onDeckItems = .ok (deckOf m))
    (hrecent : ∀ m ∈ n :: ns, ∀ sec, findSection srv m = some sec →
      sec.recentlyAddedItems limit = .ok (recentOf m))
    (hbad : findSection srv badName = none) :
    searchBlocking srv query (some (n :: ns)) limit =
      .ok (((n :: ns).filter (fun m => (findSection srv m).isSome)).flatMap itemsOf,
           ((n :: ns).filter (fun m => (findSection srv m).isNone)).map sectionWarning) ∧
    async_search cfg srv query (some (n :: ns)) limit =
      .ok (if (((n :: ns).filter
              (fun m => (findSection srv m).isSome)).flatMap itemsOf).isEmpty
           then []
           else formatResultsBlocking cfg
             ((((n :: ns).filter
                 (fun m => (findSection srv m).isSome)).flatMap itemsOf).take limit)) ∧
    async_get_on_deck cfg srv (some (n :: ns)) limit =
      .ok (formatOnDeckFrom cfg 0
        ((((n :: ns).filter
            (fun m => (findSection srv m).isSome)).flatMap deckOf).take limit)) ∧
    async_get_recently_added cfg srv (some (n :: ns)) limit =
      .ok (formatRecentFrom cfg 0
        ((((n :: ns).filter
            (fun m => (findSection srv m).isSome)).flatMap recentOf).take limit)) ∧
    async_browse_library cfg srv badName start limit sort = .error ERROR_NO_RESULTS ∧
    async_get_by_genre cfg srv badName genre limit = .error ERROR_NO_RESULTS ∧
    async_get_collections cfg srv badName = .error ERROR_NO_RESULTS := by
  have hs := accumulateSections_ok srv (fun sec => sec.searchQuery query limit)
    itemsOf (n :: ns) hsearch
  have hd := accumulateSections_ok srv (fun sec => sec.onDeckItems)
    deckOf (n :: ns) hdeck
  have hr := accumulateSections_ok srv (fun sec => sec.recentlyAddedItems limit)
    recentOf (n :: ns) hrecent
  refine ⟨hs, ?_, ?_, ?_, ?_, ?_, ?_⟩
  · simp only [async_search, searchBlocking, hs]
    split <;> rfl
  · simp only [async_get_on_deck, hd]
  · simp only [async_get_recently_added, hr]
  · simp [async_browse_library, hbad]
  · simp [async_get_by_genre, hbad]
  · simp [async_get_collections, hbad]

/-- Witness for C5: the policy theorem applied to the sample server with
sections `["Movies", "Nope"]` ("Nope" unknown) for the multi-section
operations, and to the unknown name "Nope" for the single-section ones. -/
theorem C5_unknown_section_policy_witness :
    async_search sampleCfg sampleSrv "q" (some ["Movies", "Nope"]) 6 =
      .ok (formatResultsBlocking sampleCfg (movies12.take 6)) ∧
    async_get_on_deck sampleCfg sampleSrv (some ["Movies", "Nope"]) 6 =
      .ok (formatOnDeckFrom sampleCfg 0 (movies12.take 2)) ∧
    async_get_recently_added sampleCfg sampleSrv (some ["Movies", "Nope"]) 6 =
      .ok (formatRecentFrom sampleCfg 0 (movies12.take 6)) ∧
    async_browse_library sampleCfg sampleSrv "Nope" 0 6 none =
      .error ERROR_NO_RESULTS ∧
    async_get_by_genre sampleCfg sampleSrv "Nope" "Action" 6 =
      .error ERROR_NO_RESULTS ∧
    async_get_collections sampleCfg sampleSrv "Nope" = .error ERROR_NO_RESULTS := by
  have hfound : ∀ (m : String), m ∈ ["Movies", "Nope"] → ∀ sec : PlexSection,
      findSection sampleSrv m = some sec → sec = moviesSection := by
    intro m hm sec hsec
    simp only [List.mem_cons, List.mem_singleton, List.not_mem_nil, or_false] at hm
    rcases hm with rfl | rfl
    · have h2 : some moviesSection = some sec := hsec
      cases h2; rfl
    · cases (hsec : (none : Option PlexSection) = some sec)
  have h := C5_unknown_section_policy sampleCfg sampleSrv "q" "Action" 6 0 none
    "Nope" "Movies" ["Nope"]
    (fun _ => movies12.take 6) (fun _ => movies12.take 2) (fun _ => movies12.take 6)
    (fun m hm sec hsec => by rw [hfound m hm sec hsec]; rfl)
    (fun m hm sec hsec => by rw [hfound m hm sec hsec]; rfl)
    (fun m hm sec hsec => by rw [hfound m hm sec hsec]; rfl)
    rfl
  exact ⟨h.2.1, h.2.2.1, h.2.2.2.1, h.2.2.2.2.1, h.2.2.2.2.2.1, h.2.2.2.2.2.2⟩

/-- C6: the normalized thumbnail URL is the empty string iff the raw item
exposes no thumbnail path (missing attribute or falsy value); otherwise it
equals `plex_url ++ path ++ "?X-Plex-Token=" ++ token` with the appended
token query parameter occurring exactly once (whenever `'?'` occurs in none
of the base URL, the path, or the token); and re-normalizing the same source
item yields the identical URL. -/
theorem C6_thumbnail_url (cfg : PlexConfig) (item : RawItem)
    (hu : '?' ∉ cfg.plexUrl.toList) (htok : '?' ∉ cfg.plexToken.toList)
    (hpath : ∀ t, item.thumb = some t → '?' ∉ t.toList) :
    (getThumbUrl cfg item = "" ↔ (item.thumb = none ∨ item.thumb = some "")) ∧
    (∀ t, item.thumb = some t → t ≠ "" →
      getThumbUrl cfg item = cfg.plexUrl ++ t ++ "?X-Plex-Token=" ++ cfg.plexToken ∧
      occCount ("?X-Plex-Token=".toList) (getThumbUrl cfg item).toList = 1) ∧
    getThumbUrl cfg item = getThumbUrl cfg item := by
  have hmark : ("?X-Plex-Token=" : String).toList =
      '?' :: ("X-Plex-Token=" : String).toList := rfl
  have hurl : ∀ t, item.thumb = some t → t ≠ "" →
      getThumbUrl cfg item = cfg.plexUrl ++ t ++ "?X-Plex-Token=" ++ cfg.plexToken := by
    intro t ht hne
    simp [getThumbUrl, thumbUrlOf, ht, hne]
  refine ⟨⟨?_, ?_⟩, ?_, rfl⟩
  · intro h
    cases hth : item.thumb with
    | none => exact Or.inl rfl
    | some t =>
      by_cases hte : t = ""
      · exact Or.inr (by rw [hte])
      · exfalso
        have h2 := congrArg String.toList ((hurl t hth hte).symm.trans h)
        rw [string_toList_append, string_toList_append, string_toList_append] at h2
        have h2' : cfg.plexUrl.toList ++ t.toList ++
            ("?X-Plex-Token=" : String).toList ++ cfg.plexToken.toList =
            ([] : List Char) := h2
        rw [List.append_eq_nil] at h2'
        obtain ⟨h3, -⟩ := h2'
        rw [List.append_eq_nil] at h3
        obtain ⟨-, h4⟩ := h3
        exact absurd h4 (by decide)
  · intro h
    rcases h with h | h <;> simp [getThumbUrl, thumbUrlOf, h]
  · intro t ht hne
    refine ⟨hurl t ht hne, ?_⟩
    rw [hurl t ht hne, hmark]
    rw [string_toList_append, string_toList_append, string_toList_append, hmark]
    have hshape :
        (cfg.plexUrl.toList ++ t.toList) ++
            ('?' :: ("X-Plex-Token=" : String).toList) ++ cfg.plexToken.toList =
          (cfg.plexUrl.toList ++ t.toList) ++
            '?' :: (("X-Plex-Token=" : String).toList ++ cfg.plexToken.toList) := by
      simp
    rw [hshape]
    apply occCount_once
    · intro hmem
      rcases List.mem_append.mp hmem with hmem | hmem
      · exact hu hmem
      · exact hpath t ht hmem
    · decide
    · exact htok

/-- A sample raw item exposing a thumbnail path. -/
def thumbedItem : RawItem := { thumb := some "/library/metadata/5/thumb/9" }

/-- Witness for C6: the thumbnail URL of the sample item is the base URL
plus path plus exactly one appended token parameter. -/
theorem C6_thumbnail_url_witness :
    getThumbUrl sampleCfg thumbedItem =
      "http://plex:32400/library/metadata/5/thumb/9?X-Plex-Token=tok" ∧
    occCount ("?X-Plex-Token=".toList) (getThumbUrl sampleCfg thumbedItem).toList = 1 := by
  have h := (C6_thumbnail_url sampleCfg thumbedItem (by decide) (by decide)
    (by intro t ht
        have h2 : some "/library/metadata/5/thumb/9" = some t := ht
        cases h2
        decide)).2.1 "/library/metadata/5/thumb/9" rfl (by decide)
  exact ⟨h.1.trans (by decide), h.2⟩

/-- C7: batch normalization output is never longer than its input; the output
is the order-preserving `filterMap` of the enumerated input (so surviving
items are never duplicated or reordered); and a per-item failure drops
exactly that item — the rest of the batch is still formatted, never an
operation-level failure. -/
theorem C7_normalize_batch_shrinks (cfg : PlexConfig) (base : Nat)
    (items xs ys : List RawItem) (bad : RawItem) :
    (formatItemsFrom cfg base items).length ≤ items.length ∧
    formatItemsFrom cfg base items =
      (List.enumFrom base items).filterMap (fun p => formatMediaItem cfg p.2 p.1) ∧
    (formatMediaItem cfg bad (base + xs.length) = none →
      formatItemsFrom cfg base (xs ++ bad :: ys) =
        formatItemsFrom cfg base xs ++ formatItemsFrom cfg (base + xs.length + 1) ys) := by
  refine ⟨formatItemsFrom_length cfg base items,
    formatItemsFrom_eq_filterMap cfg base items, ?_⟩
  intro hbad
  rw [formatItemsFrom_append cfg base xs (bad :: ys)]
  congr 1
  simp only [formatItemsFrom, hbad]

/-- A raw item missing every required attribute: formatting it raises. -/
def badItem : RawItem := {}

/-- Witness for C7: the bad middle item of a three-item batch is dropped and
the two good neighbours survive. -/
theorem C7_normalize_batch_shrinks_witness :
    formatMediaItem sampleCfg badItem (0 + [movieItem 1].length) = none ∧
    formatItemsFrom sampleCfg 0 ([movieItem 1] ++ badItem :: [movieItem 2]) =
      formatItemsFrom sampleCfg 0 [movieItem 1] ++
        formatItemsFrom sampleCfg (0 + [movieItem 1].length + 1) [movieItem 2] ∧
    (formatItemsFrom sampleCfg 0 ([movieItem 1] ++ badItem :: [movieItem 2])).length = 2 := by
  refine ⟨rfl, ?_, rfl⟩
  exact (C7_normalize_batch_shrinks sampleCfg 0 [] [movieItem 1] [movieItem 2] badItem).2.2 rfl

/-- The browse of the sample section at `start = 1, limit = 2`. -/
def b1 : BrowseResult :=
  match async_browse_library sampleCfg sampleSrv "Movies" 1 2 none with
  | .ok b => b
  | .error _ =>
    { results := [], total_count := 0, start := 0, limit := 0, has_more := true }

/-- An episode raw item with episode number 5 (its `index` attribute). -/
def episodeItem : RawItem :=
  { ratingKey := some 7
    title := some "Pilot"
    librarySectionID := some 2
    librarySectionTitle := some "TV"
    kind := .episode
    episodeIndex := some 5
    parentIndex := some 1 }

/-- C8 counterexample, two independent failures of the page-position claim:
`async_browse_library` formats each page item with index `start + idx`, so
browsing with `start = 1, limit = 2` yields records whose `"index"` entries
are `[1, 2]` — the record at page position 0 carries index 1, not 0; and for
an episode record the Episode branch overwrites the `"index"` entry
(`ATTR_INDEX = "index"`) with the episode number, so the episode at page
position 0 carries index 5. -/
theorem C8_browse_index_counterexample :
    b1.results.length = 2 ∧
    b1.results.map (fun r => r.index) = [some 1, some 2] ∧
    b1.results.map (fun r => r.index) ≠
      (List.range b1.results.length).map (fun n => some (n : Int)) ∧
    (formatResultsBlocking sampleCfg [episodeItem]).map (fun r => r.index) = [some 5] := by
  refine ⟨rfl, rfl, by decide, rfl⟩

/-- C8 (amended): a surviving record whose source item is not an episode
carries index `base + (0-based position of the source item in the fetched
page)` — dropped items skip their indices, so the surviving indices of an
episode-free page form a subsequence of `[base, base + pageLen)`; the base
is 0 for search, on-deck, recently-added, by-genre and collections, but
`start` for browse, so a browse record's index is its global offset in the
section listing, not its position within the page; and an episode record's
`"index"` entry is not positional at all — the Episode branch overwrites it
with the raw item's episode number (`getattr(item, "index", None)`). -/
theorem C8_index_policy_amended (cfg : PlexConfig) (srv : PlexServerM) :
    (∀ item idx r, formatMediaItem cfg item idx = some r →
      r.index = if item.kind = .episode then item.episodeIndex else some (idx : Int)) ∧
    (∀ base items, (∀ it ∈ items, it.kind ≠ .episode) →
      ((formatItemsFrom cfg base items).map (fun r => r.index)).Sublist
        ((List.range' base items.length).map (fun n => some (n : Int)))) ∧
    (∀ base items, (∀ it ∈ items, it.kind ≠ .episode) →
      ((formatOnDeckFrom cfg base items).map (fun r => r.index)).Sublist
        ((List.range' base items.length).map (fun n => some (n : Int)))) ∧
    (∀ base items, (∀ it ∈ items, it.kind ≠ .episode) →
      ((formatRecentFrom cfg base items).map (fun r => r.index)).Sublist
        ((List.range' base items.length).map (fun n => some (n : Int)))) ∧
    (∀ base cols, ((formatCollectionsFrom cfg base cols).map (fun r => r.index)).Sublist
      (List.range' base cols.length)) ∧
    (∀ name start limit sort sec allIt b,
      findSection srv name = some sec → sec.allItems sort = .ok allIt →
      async_browse_library cfg srv name start limit sort = .ok b →
      b.results = formatItemsFrom cfg start ((allIt.drop start).take limit)) ∧
    (∀ query sections limit res ws out,
      searchBlocking srv query sections limit = .ok (res, ws) →
      async_search cfg srv query sections limit = .ok out →
      (∀ it ∈ res, it.kind ≠ .episode) →
      (out.map (fun r => r.index)).Sublist
        ((List.range' 0 (res.take limit).length).map (fun n => some (n : Int)))) ∧
    (∀ name genre limit sec res,
      findSection srv name = some sec → sec.searchGenre genre limit = .ok res →
      async_get_by_genre cfg srv name genre limit = .ok (formatItemsFrom cfg 0 res)) ∧
    (∀ name sec cols,
      findSection srv name = some sec → sec.collectionItems = .ok cols →
      async_get_collections cfg srv name = .ok (formatCollectionsFrom cfg 0 cols)) ∧
    (∀ n ns limit res ws,
      accumulateSections srv (fun sec => sec.onDeckItems) (n :: ns) = .ok (res, ws) →
      async_get_on_deck cfg srv (some (n :: ns)) limit =
        .ok (formatOnDeckFrom cfg 0 (res.take limit))) ∧
    (∀ n ns limit res ws,
      accumulateSections srv (fun sec => sec.recentlyAddedItems limit) (n :: ns) =
          .ok (res, ws) →
      async_get_recently_added cfg srv (some (n :: ns)) limit =
        .ok (formatRecentFrom cfg 0 (res.take limit))) := by
  refine ⟨formatMediaItem_index cfg,
    formatItemsFrom_map_index_sublist cfg,
    formatOnDeckFrom_map_index_sublist cfg,
    formatRecentFrom_map_index_sublist cfg,
    formatCollectionsFrom_map_index_sublist cfg,
    ?_, ?_, ?_, ?_, ?_, ?_⟩
  · intro name start limit sort sec allIt b hsec hall hb
    simp only [async_browse_library, hsec, hall, Except.ok.injEq] at hb
    subst hb
    rfl
  · intro query sections limit res ws out hsb hout hep
    simp only [async_search, hsb] at hout
    split at hout
    · cases hout
      simp
    · cases hout
      exact formatItemsFrom_map_index_sublist cfg 0 (res.take limit)
        (fun it hit => hep it (List.mem_of_mem_take hit))
  · intro name genre limit sec res hsec hres
    simp [async_get_by_genre, hsec, hres]
  · intro name sec cols hsec hcols
    simp [async_get_collections, hsec, hcols]
  · intro n ns limit res ws hacc
    simp only [async_get_on_deck, hacc]
  · intro n ns limit res ws hacc
    simp only [async_get_recently_added, hacc]

/-- Witness for C8 (amended): the overwrite clause evaluated on the sample
episode (its index is the episode number 5, not the position 0), an
episode-free loop at base 3 whose indices form a subsequence of
`[some 3, some 4]`, and the `start = 1` browse page equal to the loop
applied at base 1. -/
theorem C8_index_policy_amended_witness :
    ((formatItemsFrom sampleCfg 3 (movies12.take 2)).map (fun r => r.index)).Sublist
      ((List.range' 3 (movies12.take 2).length).map (fun n => some (n : Int))) ∧
    b1.results = formatItemsFrom sampleCfg 1 ((movies12.drop 1).take 2) ∧
    (formatMediaItem sampleCfg episodeItem 0).map (fun r => r.index) =
      some (some 5) := by
  have h := C8_index_policy_amended sampleCfg sampleSrv
  refine ⟨h.2.1 3 (movies12.take 2) (by decide),
    h.2.2.2.2.2.1 "Movies" 1 2 none moviesSection movies12 b1 rfl rfl rfl, ?_⟩
  cases hr : formatMediaItem sampleCfg episodeItem 0 with
  | none => exact absurd hr (by decide)
  | some r =>
    have hidx := h.1 episodeItem 0 r hr
    simp [hidx, episodeItem]

/-- C9: with a configured non-empty player allow-list, a `play_media`
request naming a player outside the list fails up front — the handler's
whole observable behaviour is one local `EVENT_PLAYBACK_FAILED` bus event
and a raised `HomeAssistantError` with the invalid-player message; in
particular no resolver call and no player service call (no network
round-trip to the media server) ever appears in its effects. -/
theorem C9_allowlist_checked_before_remote (cfg : PlexConfig) (srv : PlexServerM)
    (selected : List String) (rating_key player : String)
    (hne : selected.isEmpty = false)
    (hnot : selected.contains player = false) :
    handle_play_media cfg srv selected rating_key player =
      { effects := [.firedEvent EVENT_PLAYBACK_FAILED]
        outcome := .haError (invalidPlayerMsg player) } ∧
    (∀ rk, PlayEffect.remoteResolve rk ∉
      (handle_play_media cfg srv selected rating_key player).effects) ∧
    (∀ e c i, PlayEffect.playerServiceCall e c i ∉
      (handle_play_media cfg srv selected rating_key player).effects) := by
  have hcond : (!selected.isEmpty && !(selected.contains player)) = true := by
    rw [hne, hnot]; rfl
  have h : handle_play_media cfg srv selected rating_key player =
      { effects := [.firedEvent EVENT_PLAYBACK_FAILED]
        outcome := .haError (invalidPlayerMsg player) } := by
    unfold handle_play_media
    rw [if_pos hcond]
  refine ⟨h, ?_, ?_⟩
  · intro rk hmem
    rw [h] at hmem
    simp at hmem
  · intro e c i hmem
    rw [h] at hmem
    simp at hmem

/-- Witness for C9: playback to `media_player.kitchen` with the allow-list
`["media_player.living_room"]` fails with the invalid-player error and no
remote or player-service effect. -/
theorem C9_allowlist_checked_before_remote_witness :
    handle_play_media sampleCfg sampleSrv ["media_player.living_room"] "101"
        "media_player.kitchen" =
      { effects := [.firedEvent EVENT_PLAYBACK_FAILED]
        outcome := .haError (invalidPlayerMsg "media_player.kitchen") } :=
  (C9_allowlist_checked_before_remote sampleCfg sampleSrv
    ["media_player.living_room"] "101" "media_player.kitchen" rfl (by decide)).1

/-- C10: when the raw result set is empty, `async_search` returns the empty
list and raises nothing, even though an exception inside the same operation
is coarsely wrapped into the `ERROR_NO_RESULTS` failure. -/
theorem C10_empty_search_returns_empty (cfg : PlexConfig) (srv : PlexServerM)
    (query : String) (library_sections : Option (List String)) (limit : Nat) :
    (∀ ws, searchBlocking srv query library_sections limit = .ok ([], ws) →
      async_search cfg srv query library_sections limit = .ok []) ∧
    (∀ e, searchBlocking srv query library_sections limit = .error e →
      async_search cfg srv query library_sections limit = .error ERROR_NO_RESULTS) := by
  constructor
  · intro ws h
    simp [async_search, h]
  · intro e h
    simp [async_search, h]

/-- Witness for C10: a search over only an unknown section yields `.ok []`,
and a search whose underlying call raises yields `ERROR_NO_RESULTS`. -/
theorem C10_empty_search_returns_empty_witness :
    async_search sampleCfg sampleSrv "q" (some ["Nope"]) 5 = .ok [] ∧
    async_search sampleCfg errSrv "q" none 5 = .error ERROR_NO_RESULTS :=
  ⟨(C10_empty_search_returns_empty sampleCfg sampleSrv "q" (some ["Nope"]) 5).1
      [sectionWarning "Nope"] rfl,
    (C10_empty_search_returns_empty sampleCfg errSrv "q" none 5).2 "boom" rfl⟩

end PlexSpec
